import Mathlib

/-
  Verification development for the detection and quarantine engine of the
  Anti-Virus-Software-For-PC repository.

  The JavaScript sources are shallowly embedded as Lean functions:
  - byte sequences are List Nat (each element one byte value),
  - library crypto (md5 / sha1 / sha256 digests, the AES block permutation,
    randomBytes, the regex engine) is modelled by oracle parameters at its
    documented interface, while every algorithm written in the repository
    (exclusion checks, signature lookup order, CBC chaining with the IV
    prepended, PKCS7 padding, the scan loop, the quarantine store) is
    translated from the source,
  - filesystem and database state are passed explicitly.
-/

set_option autoImplicit false
set_option maxRecDepth 8192

namespace AV

/-- Decidable equality for Except results, so concrete runs can be checked
by decide. -/
instance exceptDecEq {ε α : Type} [DecidableEq ε] [DecidableEq α] :
    DecidableEq (Except ε α) := fun a b =>
  match a, b with
  | Except.error e1, Except.error e2 =>
    if h : e1 = e2 then isTrue (by rw [h]) else isFalse (by intro hc; cases hc; exact h rfl)
  | Except.error _, Except.ok _ => isFalse (by intro hc; cases hc)
  | Except.ok _, Except.error _ => isFalse (by intro hc; cases hc)
  | Except.ok v1, Except.ok v2 =>
    if h : v1 = v2 then isTrue (by rw [h]) else isFalse (by intro hc; cases hc; exact h rfl)

/-! ## String and path utilities (Node path module behaviour, ASCII) -/

/-- Lower-cases every character of a string (String.prototype.toLowerCase,
restricted to the ASCII range that all configuration constants use). -/
def toLowerStr (s : String) : String := ⟨s.data.map Char.toLower⟩

/-- True for the two path separators Node recognises on win32. -/
def isSep (c : Char) : Bool := c == '/' || c == '\\'

/-- Characters of the last path component (path.basename). -/
def basenameChars (l : List Char) : List Char :=
  l.foldl (fun acc c => if isSep c then [] else acc ++ [c]) []

/-- Index of the last dot of a component, if any. -/
def lastDotIdx (b : List Char) : Option Nat :=
  match b.reverse.findIdx? (fun c => c == '.') with
  | none => none
  | some k => some (b.length - 1 - k)

/-- Extension of a path component: from the last dot to the end, empty when
there is no dot, when the only dot is the leading character of the component
(hidden files), or for the special component "..", as path.extname behaves. -/
def extOfBase (b : List Char) : List Char :=
  if b = ['.', '.'] then []
  else
    match lastDotIdx b with
    | none => []
    | some 0 => []
    | some i => b.drop i

/-- path.extname applied to a full path. -/
def extname (s : String) : String := ⟨extOfBase (basenameChars s.data)⟩

/-- path.basename applied to a full path. -/
def basename (s : String) : String := ⟨basenameChars s.data⟩

/-- Index of the last separator of a path, if any. -/
def lastSepIdx (l : List Char) : Option Nat :=
  match l.reverse.findIdx? isSep with
  | none => none
  | some k => some (l.length - 1 - k)

/-- path.dirname: everything before the last separator, "." when the path has
no separator. -/
def dirname (s : String) : String :=
  match lastSepIdx s.data with
  | none => "."
  | some i => ⟨s.data.take i⟩

/-- String.prototype.includes for a single character. -/
def containsChar (s : String) (c : Char) : Bool :=
  s.data.any (fun x => x == c)

/-- String.prototype.endsWith. -/
def strEndsWith (s suff : String) : Bool :=
  s.data.reverse.take suff.data.length == suff.data.reverse

/-! ## Configuration (src config module)

The quarantine directory is path.join with the installation directory, which
is environment dependent; a fixed placeholder stands for that absolute path.
-/

def quarantineDirPath : String := "/opt/antivirus/src/quarantine"

def maxFileSize : Nat := 500 * 1024 * 1024

def excludedExtensions : List String :=
  [".txt", ".md", ".pdf", ".jpg", ".jpeg", ".png", ".gif", ".bmp",
   ".mp3", ".mp4", ".avi", ".mkv", ".mov"]

def excludedPaths : List String :=
  [quarantineDirPath, "C:\\Windows\\WinSxS", "C:\\$Recycle.Bin"]

def enableSignatureScanning : Bool := true

def enableHeuristicAnalysis : Bool := true

def heuristicSensitivity : String := "medium"

/-! ## Database records (ThreatDatabase) -/

/-- One hash signature record of the hash_signatures collection. -/
structure HashSig where
  hash : String
  hash_type : String
  name : String
  type : String
  severity : String
  description : String
deriving DecidableEq

/-- One pattern signature record of the pattern_signatures collection.
The pat field holds the uncompiled regex source text. -/
structure PatSigRec where
  name : String
  type : String
  severity : String
  description : String
  pat : String
deriving DecidableEq

/-- One scan_history record. Timestamps are Date.now() values in ms. -/
structure ScanRec where
  id : Nat
  scan_type : String
  start_time : Nat
  end_time : Nat
  status : String
  files_scanned : Nat
  threats_found : Nat
  duration : Nat
deriving DecidableEq

/-- One threat_detections record (the fields the claims read). -/
structure ThreatDetRec where
  scan_id : Nat
  file_path : String
  threat_name : String
  threat_type : String
  severity : String
  detection_method : String
deriving DecidableEq

/-- In-memory database state: the four collections plus the initialized
flag. File persistence (readJson / writeJson of the same data) is elided. -/
structure DB where
  hash_signatures : List HashSig
  pattern_signatures : List PatSigRec
  scan_history : List ScanRec
  threat_detections : List ThreatDetRec
  initialized : Bool
deriving DecidableEq

def emptyDb : DB :=
  { hash_signatures := [], pattern_signatures := [], scan_history := [],
    threat_detections := [], initialized := false }

def eicarMd5Sig : HashSig :=
  { hash := "44d88612fea8a8f36de82e1278abb02f", hash_type := "md5",
    name := "EICAR-Test-File", type := "test", severity := "low",
    description := "EICAR antivirus test file" }

def eicarSha256Sig : HashSig :=
  { hash := "275a021bbfb6489e54d471899f7db9d1663fc695ec2fe2a2c4538aabf651fd0f",
    hash_type := "sha256", name := "EICAR-Test-File", type := "test",
    severity := "low", description := "EICAR antivirus test file" }

def psDownloaderSig : PatSigRec :=
  { name := "PowerShell.Downloader", type := "trojan", severity := "high",
    pat := "(Invoke-WebRequest|IWR|wget|curl).*\\.(exe|dll|bat|ps1)",
    description := "PowerShell download and execute pattern" }

/-- ThreatDatabase.populateInitialSignatures: push each seed signature whose
hash (for hash signatures) or name (for pattern signatures) is not already
present. -/
def populateInitialSignatures (db : DB) : DB :=
  let hs := [eicarMd5Sig, eicarSha256Sig].foldl
    (fun acc sig => if acc.any (fun h => h.hash == sig.hash) then acc else acc ++ [sig])
    db.hash_signatures
  let ps := [psDownloaderSig].foldl
    (fun acc sig => if acc.any (fun p => p.name == sig.name) then acc else acc ++ [sig])
    db.pattern_signatures
  { db with hash_signatures := hs, pattern_signatures := ps }

/-- ThreatDatabase.initialize: a no-op when already initialized, otherwise
seeds the hash signature collection when it is empty and sets the flag.
The disk round trip of the same data is elided. -/
def initDb (db : DB) : DB :=
  if db.initialized then db
  else
    let db1 := if db.hash_signatures.length = 0 then populateInitialSignatures db else db
    { db1 with initialized := true }

/-- ThreatDatabase.recordScanStart: push a running session record whose id is
the Date.now() value, and return that id. -/
def recordScanStart (db : DB) (now : Nat) (ty : String) : DB × Nat :=
  ({ db with scan_history := db.scan_history ++
      [{ id := now, scan_type := ty, start_time := now, end_time := 0,
         status := "running", files_scanned := 0, threats_found := 0,
         duration := 0 }] }, now)

/-- Update of the first scan_history record with the given id, as
Array.prototype.find locates it. -/
def completeFirst (l : List ScanRec) (scanId fs tf dur endT : Nat) : List ScanRec :=
  match l with
  | [] => []
  | r :: rest =>
    if r.id = scanId then
      { r with end_time := endT, files_scanned := fs, threats_found := tf,
               duration := dur, status := "completed" } :: rest
    else r :: completeFirst rest scanId fs tf dur endT

/-- ThreatDatabase.recordScanComplete. -/
def recordScanComplete (db : DB) (scanId fs tf dur endT : Nat) : DB :=
  { db with scan_history := completeFirst db.scan_history scanId fs tf dur endT }

/-- ThreatDatabase.recordThreatDetection (the record id and action_taken
field play no role in any claim and are elided). -/
def recordThreatDetection (db : DB) (scanId : Nat)
    (filePath threatName threatType severity method : String) : DB :=
  { db with threat_detections := db.threat_detections ++
      [{ scan_id := scanId, file_path := filePath, threat_name := threatName,
         threat_type := threatType, severity := severity,
         detection_method := method }] }

/-- The scan_history record the JS find call would return for an id. -/
def getScanRec (db : DB) (scanId : Nat) : Option ScanRec :=
  db.scan_history.find? (fun r => r.id == scanId)

/-! ## SignatureDetector -/

/-- The md5, sha1 and sha256 hex digests produced by
HashGenerator.generateAllHashes for one byte stream. The digest algorithms
themselves are library crypto and appear as an oracle of this type. -/
structure Hashes where
  md5 : String
  sha1 : String
  sha256 : String
deriving DecidableEq

/-- The value stored in the in-memory hash signature Map and returned by a
successful check. -/
structure SigInfo where
  name : String
  type : String
  severity : String
  description : String
deriving DecidableEq

/-- Detection result: the matched signature fields plus the method tag the
detector spreads into it. -/
structure FoundInfo where
  name : String
  type : String
  severity : String
  description : String
  method : String
deriving DecidableEq

/-- JS Map.set: a later set for the same key wins on get. -/
def mapSet (m : List (String × SigInfo)) (k : String) (v : SigInfo) :
    List (String × SigInfo) :=
  (k, v) :: m

/-- JS Map.get as the detector uses it (the most recently set binding). -/
def mapGet (m : List (String × SigInfo)) (k : String) : Option SigInfo :=
  (m.find? (fun e => e.1 == k)).map (fun e => e.2)

/-- A compiled pattern signature. The exec field is the regex engine oracle:
from a byte sequence and a start index, the first match at or after that
index as a start-end pair. lastIndex is the mutable cursor every regex
compiled with the g flag carries. offset and maxBytes are stored but never
consulted by checkPatternSignatures, as in the source. -/
structure PatternSig where
  name : String
  type : String
  severity : String
  description : String
  exec : List Nat → Nat → Option (Nat × Nat)
  lastIndex : Nat
  offset : Nat
  maxBytes : Nat

/-- RegExp.prototype.test on a g-flagged regex: search from lastIndex; on a
match set lastIndex to the match end, otherwise reset it to zero. -/
def testPat (p : PatternSig) (content : List Nat) : Bool × PatternSig :=
  match p.exec content p.lastIndex with
  | some me => (true, { p with lastIndex := me.2 })
  | none => (false, { p with lastIndex := 0 })

/-- Loaded detector state: the hash Map, the compiled pattern list, and the
signaturesLoaded flag. -/
structure Detector where
  loaded : Bool
  hashes : List (String × SigInfo)
  patterns : List PatternSig

def freshDetector : Detector := { loaded := false, hashes := [], patterns := [] }

/-- SignatureDetector.loadSignatures: idempotent through the loaded flag;
hash keys are lower-cased; patterns are compiled by the regex oracle with
lastIndex zero, default offset 0 and default maxBytes 1 MB. -/
def loadSignatures (compile : String → List Nat → Nat → Option (Nat × Nat))
    (db : DB) (det : Detector) : Detector :=
  if det.loaded then det
  else
    { loaded := true,
      hashes := db.hash_signatures.foldl
        (fun m sig => mapSet m (toLowerStr sig.hash)
          { name := sig.name, type := sig.type, severity := sig.severity,
            description := sig.description }) [],
      patterns := db.pattern_signatures.map (fun sig =>
        { name := sig.name, type := sig.type, severity := sig.severity,
          description := sig.description, exec := compile sig.pat,
          lastIndex := 0, offset := 0, maxBytes := 1024 * 1024 }) }

/-- SignatureDetector.checkHashSignatures: md5, then sha1, then sha256; an
empty digest string is falsy in JS and skips its check. -/
def checkHashSignatures (m : List (String × SigInfo)) (h : Hashes) :
    Option SigInfo :=
  if h.md5 != "" && (mapGet m (toLowerStr h.md5)).isSome then
    mapGet m (toLowerStr h.md5)
  else if h.sha1 != "" && (mapGet m (toLowerStr h.sha1)).isSome then
    mapGet m (toLowerStr h.sha1)
  else if h.sha256 != "" && (mapGet m (toLowerStr h.sha256)).isSome then
    mapGet m (toLowerStr h.sha256)
  else none

/-- The allow-listed executable and script extensions pattern scanning is
restricted to. -/
def scanExtensions : List String :=
  [".exe", ".dll", ".bat", ".cmd", ".ps1", ".vbs", ".js", ".jar", ".scr", ".com"]

/-- The 5 MB read bound of checkPatternSignatures. -/
def maxReadSize : Nat := 5 * 1024 * 1024

/-- The per-signature loop of checkPatternSignatures: each test mutates the
tested regex (its lastIndex); the first hit returns its signature and leaves
the remaining regexes untouched. -/
def patLoop (buf : List Nat) : List PatternSig → Option SigInfo × List PatternSig
  | [] => (none, [])
  | p :: rest =>
    match testPat p buf with
    | (true, p2) =>
      (some { name := p.name, type := p.type, severity := p.severity,
              description := p.description }, p2 :: rest)
    | (false, p2) =>
      let r := patLoop buf rest
      (r.1, p2 :: r.2)

/-- SignatureDetector.checkPatternSignatures: only allow-listed extensions
are scanned; at most the first 5 MB of the file is read (binary decode is
byte preserving); then the compiled patterns are tested in catalog order. -/
def checkPatternSignatures (pats : List PatternSig) (filePath : String)
    (content : List Nat) : Option SigInfo × List PatternSig :=
  let ext := toLowerStr (extname filePath)
  if !(scanExtensions.contains ext) then (none, pats)
  else
    let readSize := min content.length maxReadSize
    let buf := content.take readSize
    patLoop buf pats

/-- SignatureDetector.detect: load signatures once, then hash check before
pattern check; the method tag of the source is spread into the result. -/
def detect (compile : String → List Nat → Nat → Option (Nat × Nat)) (db : DB)
    (det : Detector) (filePath : String) (h : Hashes) (content : List Nat) :
    Option FoundInfo × Detector :=
  let det1 := loadSignatures compile db det
  match checkHashSignatures det1.hashes h with
  | some si =>
    (some { name := si.name, type := si.type, severity := si.severity,
            description := si.description, method := "signature-hash" }, det1)
  | none =>
    let r := checkPatternSignatures det1.patterns filePath content
    match r.1 with
    | some si =>
      (some { name := si.name, type := si.type, severity := si.severity,
              description := si.description, method := "signature-pattern" },
       { det1 with patterns := r.2 })
    | none => (none, { det1 with patterns := r.2 })

/-! ## HeuristicAnalyzer

The three regex banks (suspicious names, suspicious locations, double
extensions) and the attrib command output are library or platform behaviour
and appear as oracle predicates; every weight, list membership test and
byte-level magic check is translated from the source.
-/

/-- Oracles for the heuristic checks backed by the regex engine or the
platform: the suspicious-name bank, the suspicious-location bank, the
double-extension bank, the win32 flag and the attrib command output. -/
structure HeurEnv where
  namePat : String → Bool
  locPat : String → Bool
  dblPat : String → Bool
  isWin32 : Bool
  attribOut : String → String

def highRiskExtensions : List String :=
  [".exe", ".scr", ".pif", ".bat", ".cmd", ".com", ".vbs", ".vbe",
   ".js", ".jse", ".wsf", ".wsh", ".msi", ".jar", ".ps1", ".psm1"]

def mediumRiskExtensions : List String :=
  [".dll", ".sys", ".drv", ".ocx", ".cpl", ".scf", ".lnk", ".inf",
   ".reg", ".hta", ".gadget", ".application", ".msp", ".mst"]

def checkSuspiciousExtension (ext : String) : Nat :=
  if highRiskExtensions.contains ext then 15
  else if mediumRiskExtensions.contains ext then 10
  else 0

def checkSuspiciousFileName (env : HeurEnv) (fileName : String) : Nat :=
  if env.namePat fileName then 20 else 0

def checkSuspiciousLocation (env : HeurEnv) (filePath : String) : Nat :=
  if env.locPat filePath then 10 else 0

def checkSuspiciousSize (size : Nat) (ext : String) : Nat :=
  if ([".exe", ".dll", ".scr"].contains ext) && size < 10 * 1024 then 15
  else if ([".bat", ".cmd", ".vbs", ".ps1"].contains ext) && size > 1024 * 1024 then 10
  else 0

/-- checkFileAttributes: win32 only; the attrib output is scanned for the
characters H or S anywhere, exactly as String.prototype.includes does. -/
def checkFileAttributes (env : HeurEnv) (filePath ext : String) : Nat :=
  if env.isWin32 then
    let out := env.attribOut filePath
    if ([".exe", ".dll", ".scr", ".bat", ".cmd"].contains ext)
        && (containsChar out 'H' || containsChar out 'S') then 15
    else 0
  else 0

def hasDoubleExtension (env : HeurEnv) (fileName : String) : Bool :=
  env.dblPat fileName

/-- Byte i of the 512 byte zero-filled header buffer. -/
def headerByte (content : List Nat) (i : Nat) : Nat :=
  (content.take 512).getD i 0

/-- hasExecutableContent: MZ, ELF or Mach-O magic in a file whose extension
does not already claim to be executable. -/
def hasExecutableContent (ext : String) (content : List Nat) : Bool :=
  if [".exe", ".dll", ".scr", ".com"].contains ext then false
  else
    let b := headerByte content
    (b 0 == 0x4D && b 1 == 0x5A)
    || (b 0 == 0x7F && b 1 == 0x45 && b 2 == 0x4C && b 3 == 0x46)
    || (b 0 == 0xFE && b 1 == 0xED && b 2 == 0xFA)
    || (b 0 == 0xCF && b 1 == 0xFA && b 2 == 0xED)

/-- The seven additive check contributions of analyze, in source order:
extension tier, name bank, location bank, size anomaly, attributes, double
extension, executable header. -/
def componentScores (env : HeurEnv) (filePath : String) (size : Nat)
    (content : List Nat) : List Nat :=
  let ext := toLowerStr (extname filePath)
  let fileName := basename filePath
  [checkSuspiciousExtension ext,
   checkSuspiciousFileName env fileName,
   checkSuspiciousLocation env filePath,
   checkSuspiciousSize size ext,
   checkFileAttributes env filePath ext,
   if hasDoubleExtension env fileName then 20 else 0,
   if hasExecutableContent ext content then 15 else 0]

/-- The total suspicion score: the sum of the seven contributions. -/
def suspicionScore (env : HeurEnv) (filePath : String) (size : Nat)
    (content : List Nat) : Nat :=
  (componentScores env filePath size content).sum

/-- The sensitivity cutoffs of the analyzer. -/
def suspicionThresholds (s : String) : Nat :=
  if s = "low" then 60 else if s = "high" then 25 else 40

/-- HeuristicAnalyzer.analyze: threshold the total score; the severity is
score banded. The interpolated description text and the trait string list
are presentation data no claim reads and are elided from the result. -/
def analyze (env : HeurEnv) (filePath : String) (size : Nat)
    (content : List Nat) : Option (FoundInfo × Nat) :=
  let score := suspicionScore env filePath size content
  if suspicionThresholds heuristicSensitivity ≤ score then
    some ({ name := "Heuristic Detection", type := "suspicious",
            severity := if 70 ≤ score then "high"
                        else if 50 ≤ score then "medium" else "low",
            description := "Suspicious file detected",
            method := "heuristic" }, score)
  else none

/-! ## FileScanner -/

/-- Outcome of fs.stat for a path: ok, a benign ENOENT or EACCES failure
that scanFile swallows, or any other error that scanFile rethrows. -/
inductive Access where
  | ok
  | benign
  | fatal
deriving DecidableEq

/-- One enumerated filesystem entry as the scanner sees it: its path, its
byte content (stat size is the byte count), whether it is a directory, and
how stat behaves on it. -/
structure File where
  path : String
  content : List Nat
  isDir : Bool
  access : Access

/-- The digest engine and heuristic oracles a scan threads through. -/
structure Env where
  hashAll : List Nat → Hashes
  heur : HeurEnv

/-- FileScanner.isExcluded: extension in the exclusion list, or any
configured path is a textual prefix of the file path. -/
def isExcluded (filePath : String) : Bool :=
  let ext := toLowerStr (extname filePath)
  if excludedExtensions.contains ext then true
  else excludedPaths.any (fun p => filePath.startsWith p)

/-- The Threat record handleThreatFound builds from a detection. -/
structure Threat where
  path : String
  name : String
  type : String
  severity : String
  description : String
  detectionMethod : String
  fileSize : Nat
deriving DecidableEq

def mkThreat (f : File) (si : FoundInfo) : Threat :=
  { path := f.path, name := si.name, type := si.type, severity := si.severity,
    description := si.description, detectionMethod := si.method,
    fileSize := f.content.length }

/-- The signature-then-heuristic detection cascade of scanFile, entered only
after the digests have been computed. -/
def scanFileChecked (env : Env)
    (compile : String → List Nat → Nat → Option (Nat × Nat)) (db : DB)
    (det : Detector) (f : File) : Option Threat × Detector :=
  let h := env.hashAll f.content
  if enableSignatureScanning then
    match detect compile db det f.path h f.content with
    | (some si, det2) => (some (mkThreat f si), det2)
    | (none, det2) =>
      if enableHeuristicAnalysis then
        match analyze env.heur f.path f.content.length f.content with
        | some r => (some (mkThreat f r.1), det2)
        | none => (none, det2)
      else (none, det2)
  else
    if enableHeuristicAnalysis then
      match analyze env.heur f.path f.content.length f.content with
      | some r => (some (mkThreat f r.1), det)
      | none => (none, det)
    else (none, det)

/-- FileScanner.scanFile. The Except error is a rethrown stat failure; the
third component records whether the file content was digested. scanFile
initializes the database before scanning, so detection always runs against
the initialized (possibly seeded) signature collections; the persisted side
of that initialization is elided. -/
def scanFile (env : Env)
    (compile : String → List Nat → Nat → Option (Nat × Nat)) (db : DB)
    (det : Detector) (f : File) :
    Except Unit (Option Threat) × Detector × Bool :=
  let dbi := initDb db
  match f.access with
  | Access.fatal => (Except.error (), det, false)
  | Access.benign => (Except.ok none, det, false)
  | Access.ok =>
    if maxFileSize < f.content.length then (Except.ok none, det, false)
    else if f.isDir then (Except.ok none, det, false)
    else if isExcluded f.path then (Except.ok none, det, false)
    else
      let r := scanFileChecked env compile dbi det f
      (Except.ok r.1, r.2, true)

/-- Aggregate counters of one scan invocation. -/
structure ScanStats where
  filesScanned : Nat
  threatsFound : Nat
  errors : Nat
  threats : List Threat
  duration : Nat
deriving DecidableEq

def initialStats : ScanStats :=
  { filesScanned := 0, threatsFound := 0, errors := 0, threats := [], duration := 0 }

/-- The per-file loop of FileScanner.scan. stopAt models the cooperative
scanning flag: true at index i means stop was observed at that file
boundary. A rethrown per-file error increments errors; otherwise the file
counts as scanned, and a found threat is counted, appended and recorded in
the database (the asynchronous best-effort write is modelled as performed). -/
def scanLoop (env : Env)
    (compile : String → List Nat → Nat → Option (Nat × Nat))
    (scanId : Nat) (stopAt : Nat → Bool) :
    List File → Nat → ScanStats → DB → Detector → ScanStats × DB × Detector
  | [], _, st, db, det => (st, db, det)
  | f :: rest, i, st, db, det =>
    if stopAt i then (st, db, det)
    else
      match scanFile env compile db det f with
      | (Except.error _, det2, _) =>
        scanLoop env compile scanId stopAt rest (i + 1)
          { st with errors := st.errors + 1 } db det2
      | (Except.ok none, det2, _) =>
        scanLoop env compile scanId stopAt rest (i + 1)
          { st with filesScanned := st.filesScanned + 1 } db det2
      | (Except.ok (some t), det2, _) =>
        let db2 := recordThreatDetection db scanId t.path t.name t.type
          t.severity t.detectionMethod
        scanLoop env compile scanId stopAt rest (i + 1)
          { st with filesScanned := st.filesScanned + 1,
                    threatsFound := st.threatsFound + 1,
                    threats := st.threats ++ [t] } db2 det2

/-- The configured quick scan path set (home directories; the exact strings
are environment dependent and play no role in any claim). -/
def quickPaths : List String := ["HOME/Downloads", "HOME/Desktop", "HOME/Documents", "/tmp", "/tmp"]

/-- The configured full scan path set. -/
def fullPaths : List String := ["C:\\", "D:\\", "E:\\"]

/-- FileScanner.scan. The database is initialized, a running session record
is created, then the path set is resolved: an unknown type or a custom scan
without paths throws after the session record exists, and on that path the
record is never finalized. Otherwise the enumeration oracle lists the files
(glob and its per-path error recovery are filesystem behaviour) and the
per-file loop runs; afterwards the session record is completed with the
final counters and duration. now is the start Date.now() value, endTime the
one taken at the end of the loop. -/
def scan (env : Env)
    (compile : String → List Nat → Nat → Option (Nat × Nat))
    (db0 : DB) (det0 : Detector) (now endTime : Nat) (ty : String)
    (paths : List String) (enumFiles : List String → List File)
    (stopAt : Nat → Bool) : Except String ScanStats × DB × Detector :=
  let db1 := initDb db0
  let started := recordScanStart db1 now ty
  let db2 := started.1
  let scanId := started.2
  if ty = "quick" ∨ ty = "full" ∨ (ty = "custom" ∧ paths ≠ []) then
    let scanPaths :=
      if ty = "quick" then quickPaths
      else if ty = "full" then fullPaths
      else paths
    let files := enumFiles scanPaths
    let r := scanLoop env compile scanId stopAt files 0 initialStats db2 det0
    let finalStats := { r.1 with duration := endTime - now }
    let db3 := recordScanComplete r.2.1 scanId finalStats.filesScanned
      finalStats.threatsFound finalStats.duration endTime
    (Except.ok finalStats, db3, r.2.2)
  else
    (Except.error "Invalid scan type or paths", db2, det0)

/-! ## QuarantineManager

The aes-256-cbc cipher of the crypto library is CBC chaining with PKCS7
padding around the AES block permutation; the chaining, the padding and the
IV prepending are modelled concretely, the keyed block permutation is an
oracle pair (enc, dec) on 16 byte blocks.
-/

/-- The keyed 16 byte block permutation of the cipher (AES-256 under the
configured key) and its inverse. -/
structure BlockCipher where
  enc : List Nat → List Nat
  dec : List Nat → List Nat

/-- Bytewise xor of two equal-length blocks. -/
def xorB (a b : List Nat) : List Nat := List.zipWith (fun x y => x ^^^ y) a b

/-- PKCS7 padding: always append p copies of p, where p is 16 minus the
length remainder (16 when the length is already a multiple of 16). -/
def pkcs7Pad (m : List Nat) : List Nat :=
  let p := 16 - m.length % 16
  m ++ List.replicate p p

/-- PKCS7 unpadding with the full padding check the cipher performs on
final; none models the bad decrypt error. -/
def pkcs7Unpad (l : List Nat) : Option (List Nat) :=
  match l.reverse with
  | [] => none
  | p :: _ =>
    if 1 ≤ p ∧ p ≤ 16 ∧ p ≤ l.length
        ∧ (l.drop (l.length - p)).all (fun x => x == p) then
      some (l.take (l.length - p))
    else none

/-- Block splitting worker with a structural fuel argument (any fuel at
least the list length yields the same result). -/
def chunksAux : Nat → List Nat → List (List Nat)
  | 0, _ => []
  | _, [] => []
  | fuel + 1, l => l.take 16 :: chunksAux fuel (l.drop 16)

/-- Split a byte list into consecutive 16 byte blocks (the last block may be
shorter only when the length is not a multiple of 16). -/
def chunks16 (l : List Nat) : List (List Nat) :=
  chunksAux l.length l

/-- CBC encryption of a block sequence: each block is xored with the
previous ciphertext block (initially the IV) and then enciphered. -/
def cbcEnc (E : List Nat → List Nat) (prev : List Nat) :
    List (List Nat) → List (List Nat)
  | [] => []
  | p :: ps =>
    let c := E (xorB p prev)
    c :: cbcEnc E c ps

/-- CBC decryption of a block sequence. -/
def cbcDec (D : List Nat → List Nat) (prev : List Nat) :
    List (List Nat) → List (List Nat)
  | [] => []
  | c :: cs => xorB (D c) prev :: cbcDec D c cs

/-- QuarantineManager.encryptFile: pad, CBC-encrypt under the supplied IV
(the bytes crypto.randomBytes returned for this call) and prepend the IV. -/
def encryptFile (bc : BlockCipher) (iv : List Nat) (content : List Nat) :
    List Nat :=
  iv ++ (cbcEnc bc.enc iv (chunks16 (pkcs7Pad content))).flatten

/-- QuarantineManager.decryptFile: the first 16 bytes are the IV, the rest
is CBC-decrypted and unpadded; none models the bad decrypt throw. -/
def decryptFile (bc : BlockCipher) (data : List Nat) : Option (List Nat) :=
  let iv := data.take 16
  let ct := data.drop 16
  pkcs7Unpad (cbcDec bc.dec iv (chunks16 ct)).flatten

/-- The randomness and clock values one quarantine call draws: the 16 IV
bytes from crypto.randomBytes(16), the 16 hex characters of
crypto.randomBytes(8).toString(hex), and the Date.now() value. -/
structure Rng where
  iv : List Nat
  idHex : String
  now : Nat

/-- QuarantineManager.generateQuarantineId. -/
def genId (rng : Rng) : String :=
  "quar_" ++ toString rng.now ++ "_" ++ rng.idHex

/-- One metadata record of the quarantine store. quarantinedAt keeps the
Date.now() value whose ISO rendering the source stores. -/
structure QMeta where
  id : String
  originalPath : String
  fileName : String
  fileSize : Nat
  quarantinedAt : Nat
  hash : String
deriving DecidableEq

/-- Key-value store primitives for one directory of named objects: a write
replaces any object of the same name. -/
def entGet {α : Type} (l : List (String × α)) (k : String) : Option α :=
  (l.find? (fun e => e.1 == k)).map (fun e => e.2)

def entSet {α : Type} (l : List (String × α)) (k : String) (v : α) :
    List (String × α) :=
  (k, v) :: l.filter (fun e => e.1 != k)

def entDel {α : Type} (l : List (String × α)) (k : String) :
    List (String × α) :=
  l.filter (fun e => e.1 != k)

/-- The filesystem outside the quarantine directory: regular files by path,
plus the set of existing directories (for the restore fallback check). -/
structure FS where
  files : List (String × List Nat)
  dirs : List String
deriving DecidableEq

def getFile (fs : FS) (p : String) : Option (List Nat) := entGet fs.files p

def setFile (fs : FS) (p : String) (c : List Nat) : FS :=
  { fs with files := entSet fs.files p c }

def removeFile (fs : FS) (p : String) : FS :=
  { fs with files := entDel fs.files p }

/-- The quarantine directory: the ciphertext objects (id.quar) and the
metadata objects (id.json), keyed by quarantine id. -/
structure Vault where
  ciphers : List (String × List Nat)
  metas : List (String × QMeta)
deriving DecidableEq

/-- QuarantineManager.quarantineFile: fail when the path does not exist;
otherwise read the content, encrypt it under the freshly drawn IV, write
the ciphertext, write the metadata (with the sha256 digest of the original
bytes, digest being the hash oracle), then delete the original. Returns the
generated quarantine id with the updated filesystem and vault. -/
def quarantineFile (bc : BlockCipher) (digest : List Nat → String) (rng : Rng)
    (fs : FS) (v : Vault) (filePath : String) :
    Except String (String × FS × Vault) :=
  match getFile fs filePath with
  | none => Except.error "File not found"
  | some content =>
    let quarantineId := genId rng
    let encrypted := encryptFile bc rng.iv content
    let v1 : Vault := { v with ciphers := entSet v.ciphers quarantineId encrypted }
    let md : QMeta :=
      { id := quarantineId, originalPath := filePath,
        fileName := basename filePath, fileSize := content.length,
        quarantinedAt := rng.now, hash := digest content }
    let v2 : Vault := { v1 with metas := entSet v1.metas quarantineId md }
    let fs1 := removeFile fs filePath
    Except.ok (quarantineId, fs1, v2)

/-- The desktop fallback directory restoreFile redirects to when the
original directory no longer exists (environment dependent constant). -/
def desktopDir : String := "HOME/Desktop"

def joinPath (d f : String) : String := d ++ "/" ++ f

/-- QuarantineManager.restoreFile: fail with the not-found message when the
metadata or the ciphertext object is missing; decrypt with the stored IV
(a padding failure is the bad decrypt error); restore to the original path,
or to Restored_ prefixed on the desktop when the original directory is
gone; then remove ciphertext and metadata. -/
def restoreFile (bc : BlockCipher) (fs : FS) (v : Vault)
    (quarantineId : String) : Except String (String × FS × Vault) :=
  match entGet v.metas quarantineId, entGet v.ciphers quarantineId with
  | some md, some encrypted =>
    (match decryptFile bc encrypted with
     | none => Except.error "bad decrypt"
     | some content =>
       let restorePath :=
         if fs.dirs.contains (dirname md.originalPath) then md.originalPath
         else joinPath desktopDir ("Restored_" ++ md.fileName)
       let fs1 := setFile fs restorePath content
       let v1 : Vault := { v with ciphers := entDel v.ciphers quarantineId }
       let v2 : Vault := { v1 with metas := entDel v1.metas quarantineId }
       Except.ok (restorePath, fs1, v2))
  | _, _ => Except.error "Quarantined file not found"

/-- QuarantineManager.permanentDelete: remove whichever of the two objects
exists; never an error. -/
def permanentDelete (v : Vault) (quarantineId : String) : Vault :=
  { ciphers := entDel v.ciphers quarantineId,
    metas := entDel v.metas quarantineId }

/-! ## getQuarantineList -/

/-- Newest first: the comparator (b.quarantinedAt minus a.quarantinedAt
positive) orders larger timestamps in front. -/
def newerFirst (a b : QMeta) : Prop := b.quarantinedAt ≤ a.quarantinedAt

instance : DecidableRel newerFirst := fun a b =>
  Nat.decLe b.quarantinedAt a.quarantinedAt

instance : IsTotal QMeta newerFirst :=
  ⟨fun a b => Nat.le_total b.quarantinedAt a.quarantinedAt⟩

instance : IsTrans QMeta newerFirst :=
  ⟨fun _ _ _ h1 h2 => Nat.le_trans h2 h1⟩

/-- The metadata read loop of getQuarantineList: the first failing readJson
aborts the whole listing. -/
def readAllMetas (readJson : String → Except Unit QMeta) :
    List String → Except Unit (List QMeta)
  | [] => Except.ok []
  | f :: rest =>
    match readJson f with
    | Except.error e => Except.error e
    | Except.ok md =>
      match readAllMetas readJson rest with
      | Except.error e => Except.error e
      | Except.ok mds => Except.ok (md :: mds)

/-- QuarantineManager.getQuarantineList: list the directory, keep the .json
names, read each record and sort newest first; any failure along the way is
caught and yields the empty list. readdir and readJson are the filesystem
oracles, each may fail. -/
def getQuarantineList (readdir : Except Unit (List String))
    (readJson : String → Except Unit QMeta) : List QMeta :=
  match readdir with
  | Except.error _ => []
  | Except.ok names =>
    let metadataFiles := names.filter (fun f => strEndsWith f ".json")
    match readAllMetas readJson metadataFiles with
    | Except.error _ => []
    | Except.ok mds => mds.insertionSort newerFirst

/-! ## Helper lemmas about block splitting, xor and CBC -/

theorem chunksAux_congr : ∀ (f1 f2 : Nat) (l : List Nat),
    l.length ≤ f1 → l.length ≤ f2 → chunksAux f1 l = chunksAux f2 l := by
  intro f1
  induction f1 with
  | zero =>
    intro f2 l h1 _
    have : l = [] := List.eq_nil_of_length_eq_zero (Nat.le_zero.mp h1)
    subst this
    cases f2 <;> rfl
  | succ g ih =>
    intro f2 l h1 h2
    cases f2 with
    | zero =>
      have : l = [] := List.eq_nil_of_length_eq_zero (Nat.le_zero.mp h2)
      subst this
      rfl
    | succ g2 =>
      cases l with
      | nil => rfl
      | cons a t =>
        show (a :: t).take 16 :: chunksAux g ((a :: t).drop 16)
            = (a :: t).take 16 :: chunksAux g2 ((a :: t).drop 16)
        have hlen : ((a :: t).drop 16).length ≤ t.length := by
          simp [List.length_drop]
        have h1' : ((a :: t).drop 16).length ≤ g := by
          have := List.length_cons a t ▸ h1
          omega
        have h2' : ((a :: t).drop 16).length ≤ g2 := by
          have := List.length_cons a t ▸ h2
          omega
        rw [ih _ _ h1' h2']

theorem chunks16_cons (l : List Nat) (h : l ≠ []) :
    chunks16 l = l.take 16 :: chunks16 (l.drop 16) := by
  cases l with
  | nil => exact absurd rfl h
  | cons a t =>
    show chunksAux (t.length + 1) (a :: t)
        = (a :: t).take 16 :: chunksAux ((a :: t).drop 16).length ((a :: t).drop 16)
    show (a :: t).take 16 :: chunksAux t.length ((a :: t).drop 16)
        = (a :: t).take 16 :: chunksAux ((a :: t).drop 16).length ((a :: t).drop 16)
    congr 1
    exact chunksAux_congr _ _ _ (by simp [List.length_drop]) le_rfl

theorem flatten_chunksAux : ∀ (fuel : Nat) (l : List Nat),
    l.length ≤ fuel → (chunksAux fuel l).flatten = l := by
  intro fuel
  induction fuel with
  | zero =>
    intro l h
    have : l = [] := List.eq_nil_of_length_eq_zero (Nat.le_zero.mp h)
    subst this
    rfl
  | succ g ih =>
    intro l h
    cases l with
    | nil => rfl
    | cons a t =>
      show ((a :: t).take 16 :: chunksAux g ((a :: t).drop 16)).flatten = a :: t
      have h' : ((a :: t).drop 16).length ≤ g := by
        have := List.length_cons a t ▸ h
        simp [List.length_drop]
        omega
      simp only [List.flatten_cons, ih _ h']
      exact List.take_append_drop 16 (a :: t)

theorem flatten_chunks16 (l : List Nat) : (chunks16 l).flatten = l :=
  flatten_chunksAux l.length l le_rfl

theorem blocks_chunksAux : ∀ (fuel : Nat) (l : List Nat),
    l.length ≤ fuel → l.length % 16 = 0 →
    ∀ b ∈ chunksAux fuel l, b.length = 16 := by
  intro fuel
  induction fuel with
  | zero =>
    intro l h _ b hb
    have : l = [] := List.eq_nil_of_length_eq_zero (Nat.le_zero.mp h)
    subst this
    simp [chunksAux] at hb
  | succ g ih =>
    intro l h hmod b hb
    cases l with
    | nil => simp [chunksAux] at hb
    | cons a t =>
      have hlc : (a :: t).length = t.length + 1 := List.length_cons a t
      have hge : 16 ≤ (a :: t).length := by omega
      have hb' : b ∈ (a :: t).take 16 :: chunksAux g ((a :: t).drop 16) := hb
      rcases List.mem_cons.mp hb' with hb2 | hb2
      · subst hb2
        rw [List.length_take]
        omega
      · refine ih _ ?_ ?_ b hb2
        · rw [List.length_drop]
          omega
        · rw [List.length_drop]
          omega

theorem blocks_chunks16 (l : List Nat) (hmod : l.length % 16 = 0) :
    ∀ b ∈ chunks16 l, b.length = 16 :=
  blocks_chunksAux l.length l le_rfl hmod

theorem chunks16_of_blocks : ∀ (bs : List (List Nat)),
    (∀ b ∈ bs, b.length = 16) → chunks16 bs.flatten = bs := by
  intro bs
  induction bs with
  | nil => intro _; rfl
  | cons b rest ih =>
    intro hall
    have hb : b.length = 16 := hall b (List.mem_cons_self b rest)
    have hbne : b ++ rest.flatten ≠ [] := by
      intro hc
      have : b = [] := List.append_eq_nil.mp hc |>.1
      rw [this] at hb
      simp at hb
    rw [List.flatten_cons, chunks16_cons _ hbne]
    have htake : (b ++ rest.flatten).take 16 = b := by
      rw [show (16 : Nat) = b.length from hb.symm]
      exact List.take_left b rest.flatten
    have hdrop : (b ++ rest.flatten).drop 16 = rest.flatten := by
      rw [show (16 : Nat) = b.length from hb.symm]
      exact List.drop_left b rest.flatten
    rw [htake, hdrop, ih (fun x hx => hall x (List.mem_cons_of_mem b hx))]

theorem length_xorB (a b : List Nat) : (xorB a b).length = min a.length b.length :=
  List.length_zipWith _ a b

theorem xorB_xorB_cancel : ∀ (p q : List Nat), p.length = q.length →
    xorB (xorB p q) q = p := by
  intro p
  induction p with
  | nil => intro q _; rfl
  | cons x xs ih =>
    intro q hq
    cases q with
    | nil => simp at hq
    | cons y ys =>
      show (x ^^^ y ^^^ y) :: xorB (xorB xs ys) ys = x :: xs
      rw [Nat.xor_assoc, Nat.xor_self, Nat.xor_zero,
        ih ys (by simpa using hq)]

theorem cbcEnc_blocks (E : List Nat → List Nat)
    (hLen : ∀ b : List Nat, b.length = 16 → (E b).length = 16) :
    ∀ (bs : List (List Nat)) (prev : List Nat), prev.length = 16 →
    (∀ b ∈ bs, b.length = 16) → ∀ c ∈ cbcEnc E prev bs, c.length = 16 := by
  intro bs
  induction bs with
  | nil => intro prev _ _ c hc; simp [cbcEnc] at hc
  | cons p ps ih =>
    intro prev hprev hall c hc
    have hp : p.length = 16 := hall p (List.mem_cons_self p ps)
    have hxl : (xorB p prev).length = 16 := by
      rw [length_xorB, hp, hprev]; rfl
    have hfirst : (E (xorB p prev)).length = 16 := hLen _ hxl
    have hc' : c ∈ E (xorB p prev) :: cbcEnc E (E (xorB p prev)) ps := hc
    rcases List.mem_cons.mp hc' with hc2 | hc2
    · rw [hc2]; exact hfirst
    · exact ih (E (xorB p prev)) hfirst
        (fun x hx => hall x (List.mem_cons_of_mem p hx)) c hc2

theorem cbcDec_cbcEnc (E D : List Nat → List Nat)
    (hED : ∀ b : List Nat, b.length = 16 → D (E b) = b)
    (hLen : ∀ b : List Nat, b.length = 16 → (E b).length = 16) :
    ∀ (bs : List (List Nat)) (prev : List Nat), prev.length = 16 →
    (∀ b ∈ bs, b.length = 16) → cbcDec D prev (cbcEnc E prev bs) = bs := by
  intro bs
  induction bs with
  | nil => intro prev _ _; rfl
  | cons p ps ih =>
    intro prev hprev hall
    have hp : p.length = 16 := hall p (List.mem_cons_self p ps)
    have hxl : (xorB p prev).length = 16 := by
      rw [length_xorB, hp, hprev]; rfl
    show xorB (D (E (xorB p prev))) prev
        :: cbcDec D (E (xorB p prev)) (cbcEnc E (E (xorB p prev)) ps) = p :: ps
    rw [hED _ hxl, xorB_xorB_cancel p prev (hp.trans hprev.symm),
      ih (E (xorB p prev)) (hLen _ hxl)
        (fun x hx => hall x (List.mem_cons_of_mem p hx))]

theorem pkcs7Pad_mod (m : List Nat) : (pkcs7Pad m).length % 16 = 0 := by
  show (m ++ List.replicate (16 - m.length % 16) (16 - m.length % 16)).length % 16 = 0
  rw [List.length_append, List.length_replicate]
  have := Nat.mod_lt m.length (show 0 < 16 by norm_num)
  omega

theorem pkcs7Unpad_pkcs7Pad (m : List Nat) : pkcs7Unpad (pkcs7Pad m) = some m := by
  have hlt : m.length % 16 < 16 := Nat.mod_lt m.length (by norm_num)
  have hp1 : 1 ≤ 16 - m.length % 16 := by omega
  obtain ⟨k, hk⟩ : ∃ k, 16 - m.length % 16 = k + 1 :=
    ⟨16 - m.length % 16 - 1, by omega⟩
  have hpad : pkcs7Pad m = m ++ List.replicate (k + 1) (k + 1) := by
    show m ++ List.replicate (16 - m.length % 16) (16 - m.length % 16) = _
    rw [hk]
  have hrev : (m ++ List.replicate (k + 1) (k + 1)).reverse
      = (k + 1) :: (List.replicate k (k + 1) ++ m.reverse) := by
    rw [List.reverse_append, List.reverse_replicate, List.replicate_succ]
    rfl
  have hlen : (m ++ List.replicate (k + 1) (k + 1)).length = m.length + (k + 1) := by
    rw [List.length_append, List.length_replicate]
  have hdrop : (m ++ List.replicate (k + 1) (k + 1)).drop m.length
      = List.replicate (k + 1) (k + 1) := List.drop_left m _
  have htake : (m ++ List.replicate (k + 1) (k + 1)).take m.length = m :=
    List.take_left m _
  have hsub : (m ++ List.replicate (k + 1) (k + 1)).length - (k + 1) = m.length := by
    omega
  rw [hpad]
  simp only [pkcs7Unpad, hrev]
  rw [if_pos]
  · rw [hsub, htake]
  · refine ⟨by omega, by omega, by omega, ?_⟩
    rw [hsub, hdrop]
    simp [List.all_eq_true, List.mem_replicate]

theorem decryptFile_encryptFile (bc : BlockCipher)
    (hED : ∀ b : List Nat, b.length = 16 → bc.dec (bc.enc b) = b)
    (hLen : ∀ b : List Nat, b.length = 16 → (bc.enc b).length = 16)
    (iv : List Nat) (hiv : iv.length = 16) (m : List Nat) :
    decryptFile bc (encryptFile bc iv m) = some m := by
  have hpadblocks : ∀ b ∈ chunks16 (pkcs7Pad m), b.length = 16 :=
    blocks_chunks16 _ (pkcs7Pad_mod m)
  have hcblocks : ∀ c ∈ cbcEnc bc.enc iv (chunks16 (pkcs7Pad m)), c.length = 16 :=
    cbcEnc_blocks bc.enc hLen _ iv hiv hpadblocks
  show pkcs7Unpad (cbcDec bc.dec
      ((iv ++ (cbcEnc bc.enc iv (chunks16 (pkcs7Pad m))).flatten).take 16)
      (chunks16 ((iv ++ (cbcEnc bc.enc iv (chunks16 (pkcs7Pad m))).flatten).drop 16))).flatten
    = some m
  have htake : (iv ++ (cbcEnc bc.enc iv (chunks16 (pkcs7Pad m))).flatten).take 16 = iv := by
    rw [show (16 : Nat) = iv.length from hiv.symm]
    exact List.take_left iv _
  have hdrop : (iv ++ (cbcEnc bc.enc iv (chunks16 (pkcs7Pad m))).flatten).drop 16
      = (cbcEnc bc.enc iv (chunks16 (pkcs7Pad m))).flatten := by
    rw [show (16 : Nat) = iv.length from hiv.symm]
    exact List.drop_left iv _
  rw [htake, hdrop, chunks16_of_blocks _ hcblocks,
    cbcDec_cbcEnc bc.enc bc.dec hED hLen _ iv hiv hpadblocks,
    flatten_chunks16, pkcs7Unpad_pkcs7Pad]

/-! ## Helper lemmas about the key-value stores and the scan history -/

theorem entGet_entSet {α : Type} (l : List (String × α)) (k : String) (v : α) :
    entGet (entSet l k v) k = some v := by
  simp [entGet, entSet]

theorem entGet_entDel {α : Type} (l : List (String × α)) (k : String) :
    entGet (entDel l k) k = none := by
  unfold entGet entDel
  rw [List.find?_eq_none.mpr]
  · rfl
  · intro x hx
    have hmem := List.of_mem_filter hx
    simp only [bne_iff_ne, ne_eq] at hmem
    simp [hmem]

theorem entDel_entDel {α : Type} (l : List (String × α)) (k : String) :
    entDel (entDel l k) k = entDel l k := by
  unfold entDel
  rw [List.filter_filter]
  exact List.filter_congr (fun x _ => by simp)

theorem entGet_entSet_entSet {α : Type} (l : List (String × α)) (k : String)
    (v w : α) : entGet (entSet (entSet l k v) k w) k = some w :=
  entGet_entSet _ k w

theorem find?_append_fresh (old : List ScanRec) (x : ScanRec) (n : Nat)
    (hfresh : ∀ r ∈ old, r.id ≠ n) (hx : x.id = n) :
    (old ++ [x]).find? (fun r => r.id == n) = some x := by
  induction old with
  | nil => simp [List.find?, hx]
  | cons r rest ih =>
    have hr : (r.id == n) = false := by
      simp [hfresh r (List.mem_cons_self r rest)]
    simp only [List.cons_append, List.find?_cons, hr]
    exact ih (fun s hs => hfresh s (List.mem_cons_of_mem r hs))

/-- The finalized shape of a session record after recordScanComplete. -/
def finishRec (x : ScanRec) (fs tf dur endT : Nat) : ScanRec :=
  { x with end_time := endT, files_scanned := fs, threats_found := tf,
           duration := dur, status := "completed" }

theorem completeFirst_append_fresh (old : List ScanRec) (x : ScanRec)
    (n fs tf dur endT : Nat) (hfresh : ∀ r ∈ old, r.id ≠ n) (hx : x.id = n) :
    completeFirst (old ++ [x]) n fs tf dur endT
      = old ++ [finishRec x fs tf dur endT] := by
  induction old with
  | nil => simp [completeFirst, hx, finishRec]
  | cons r rest ih =>
    have hr : ¬(r.id = n) := hfresh r (List.mem_cons_self r rest)
    simp only [List.cons_append, completeFirst, if_neg hr]
    rw [show rest.append [x] = rest ++ [x] from rfl,
      ih (fun s hs => hfresh s (List.mem_cons_of_mem r hs))]

theorem initDb_scan_history (db : DB) : (initDb db).scan_history = db.scan_history := by
  unfold initDb populateInitialSignatures
  by_cases h : db.initialized
  · rw [if_pos h]
  · rw [if_neg h]
    by_cases h2 : db.hash_signatures.length = 0
    · rw [if_pos h2]
    · rw [if_neg h2]

theorem scanLoop_scan_history (env : Env)
    (compile : String → List Nat → Nat → Option (Nat × Nat))
    (scanId : Nat) (stopAt : Nat → Bool) :
    ∀ (files : List File) (i : Nat) (st : ScanStats) (db : DB) (det : Detector),
    (scanLoop env compile scanId stopAt files i st db det).2.1.scan_history
      = db.scan_history := by
  intro files
  induction files with
  | nil => intro i st db det; rfl
  | cons f rest ih =>
    intro i st db det
    show (if stopAt i then (st, db, det) else _).2.1.scan_history = db.scan_history
    by_cases h : stopAt i
    · rw [if_pos h]
    · rw [if_neg h]
      rcases hsf : scanFile env compile db det f with ⟨r, det2, dg⟩
      cases r with
      | error e => simpa [hsf] using ih (i + 1) _ db det2
      | ok o =>
        cases o with
        | none => simpa [hsf] using ih (i + 1) _ db det2
        | some t =>
          have := ih (i + 1)
            { st with filesScanned := st.filesScanned + 1,
                      threatsFound := st.threatsFound + 1,
                      threats := st.threats ++ [t] }
            (recordThreatDetection db scanId t.path t.name t.type t.severity
              t.detectionMethod) det2
          simpa [hsf, recordThreatDetection] using this

theorem scanFile_not_error (env : Env)
    (compile : String → List Nat → Nat → Option (Nat × Nat)) (db : DB)
    (det : Detector) (f : File) (h : f.access ≠ Access.fatal) (e : Unit) :
    (scanFile env compile db det f).1 ≠ Except.error e := by
  unfold scanFile
  cases ha : f.access with
  | fatal => exact absurd ha h
  | benign => simp
  | ok =>
    simp only []
    split
    · simp
    · split
      · simp
      · split
        · simp
        · simp

theorem scanLoop_counts_all (env : Env)
    (compile : String → List Nat → Nat → Option (Nat × Nat))
    (scanId : Nat) :
    ∀ (files : List File) (i : Nat) (st : ScanStats) (db : DB) (det : Detector),
    (∀ f ∈ files, f.access ≠ Access.fatal) →
    (scanLoop env compile scanId (fun _ => false) files i st db det).1.filesScanned
      = st.filesScanned + files.length := by
  intro files
  induction files with
  | nil => intro i st db det _; rfl
  | cons f rest ih =>
    intro i st db det hall
    have hf : f.access ≠ Access.fatal := hall f (List.mem_cons_self f rest)
    have hrest : ∀ g ∈ rest, g.access ≠ Access.fatal :=
      fun g hg => hall g (List.mem_cons_of_mem f hg)
    show (if false then (st, db, det) else _).1.filesScanned = _
    rw [if_neg (by simp)]
    rcases hsf : scanFile env compile db det f with ⟨r, det2, dg⟩
    cases r with
    | error e =>
      exact absurd (by rw [hsf]) (scanFile_not_error env compile db det f hf e)
    | ok o =>
      cases o with
      | none =>
        have := ih (i + 1) { st with filesScanned := st.filesScanned + 1 } db det2 hrest
        simp only [hsf]
        rw [this]
        simp [List.length_cons]
        omega
      | some t =>
        have := ih (i + 1)
          { st with filesScanned := st.filesScanned + 1,
                    threatsFound := st.threatsFound + 1,
                    threats := st.threats ++ [t] }
          (recordThreatDetection db scanId t.path t.name t.type t.severity
            t.detectionMethod) det2 hrest
        simp only [hsf]
        rw [this]
        simp [List.length_cons]
        omega

theorem genId_idHex_inj (rng1 rng2 : Rng)
    (hlen : rng1.idHex.length = rng2.idHex.length)
    (heq : genId rng1 = genId rng2) : rng1.idHex = rng2.idHex := by
  have hd : ((("quar_" ++ toString rng1.now) ++ "_").data ++ rng1.idHex.data)
      = ((("quar_" ++ toString rng2.now) ++ "_").data ++ rng2.idHex.data) := by
    have h0 : (genId rng1).data = (genId rng2).data := by rw [heq]
    unfold genId at h0
    rwa [String.data_append, String.data_append] at h0
  have hlen2 : rng1.idHex.data.length = rng2.idHex.data.length := hlen
  have hA : ((("quar_" ++ toString rng1.now) ++ "_").data).length
      = ((("quar_" ++ toString rng2.now) ++ "_").data).length := by
    have := congrArg List.length hd
    rw [List.length_append, List.length_append] at this
    omega
  exact String.ext (List.append_inj hd hA).2

theorem take16_encryptFile (bc : BlockCipher) (iv m : List Nat)
    (hiv : iv.length = 16) : (encryptFile bc iv m).take 16 = iv := by
  show ((iv ++ (cbcEnc bc.enc iv (chunks16 (pkcs7Pad m))).flatten).take 16) = iv
  rw [show (16 : Nat) = iv.length from hiv.symm]
  exact List.take_left iv _

/-! ## Concrete fixtures used by witnesses and counterexamples -/

/-- The digest set of the EICAR reference bytes (public constants of the
test file; the digest computation itself is library crypto). -/
def eicarHashes : Hashes :=
  { md5 := "44d88612fea8a8f36de82e1278abb02f",
    sha1 := "3395856ce81f2b7382dee72602f798b642f14140",
    sha256 := "275a021bbfb6489e54d471899f7db9d1663fc695ec2fe2a2c4538aabf651fd0f" }

/-- The signature fields detect returns for an EICAR hash match. -/
def eicarFound : FoundInfo :=
  { name := "EICAR-Test-File", type := "test", severity := "low",
    description := "EICAR antivirus test file", method := "signature-hash" }

/-- A regex compile oracle whose compiled patterns never match. -/
def noCompile : String → List Nat → Nat → Option (Nat × Nat) := fun _ _ _ => none

/-- Heuristic oracles on which no regex bank fires and no attribute shows. -/
def trivHeur : HeurEnv :=
  { namePat := fun _ => false, locPat := fun _ => false,
    dblPat := fun _ => false, isWin32 := false, attribOut := fun _ => "" }

/-- A scan environment whose digest oracle returns the EICAR digest set for
every content (standing for files holding the EICAR bytes). -/
def eicarEnv : Env := { hashAll := fun _ => eicarHashes, heur := trivHeur }

/-- An EICAR content file with a scannable extension. -/
def fCom : File :=
  { path := "eicar.com", content := [1, 2, 3], isDir := false, access := Access.ok }

/-- The same content under an extension of the configured exclusion list. -/
def fTxt : File :=
  { path := "eicar.txt", content := [1, 2, 3], isDir := false, access := Access.ok }

/-- The identity block permutation: a legitimate instantiation of the block
cipher oracle for concrete runs. -/
def idBc : BlockCipher := { enc := id, dec := id }

/-- A fixed randomness draw (an entirely possible randomBytes outcome). -/
def rngA : Rng := { iv := List.replicate 16 0, idHex := "0011223344556677", now := 5 }

/-- A digest oracle for concrete runs. -/
def digA : List Nat → String := fun c => toString c.length

/-- A two-file filesystem for the quarantine runs. -/
def fsA : FS :=
  { files := [("d/x.exe", [1, 2, 3]), ("d/y.exe", [9, 9])], dirs := ["d"] }

def vaultA : Vault := { ciphers := [], metas := [] }

/-- Fallback triple for projecting quarantine results in closed statements. -/
def qDummy : String × FS × Vault :=
  ("", { files := [], dirs := [] }, { ciphers := [], metas := [] })

/-- Result of the first concrete quarantine call. -/
def qRun1 : String × FS × Vault :=
  (quarantineFile idBc digA rngA fsA vaultA "d/x.exe").toOption.getD qDummy

/-- Result of a second sequential quarantine call on another file, with the
randomness oracle returning the same draw again. -/
def qRun2 : String × FS × Vault :=
  (quarantineFile idBc digA rngA qRun1.2.1 qRun1.2.2 "d/y.exe").toOption.getD qDummy

/-- The SigInfo record stored in the signature map for the EICAR digests. -/
def eicarSigInfo : SigInfo :=
  { name := "EICAR-Test-File", type := "test", severity := "low",
    description := "EICAR antivirus test file" }

/-! ## Claim theorems -/

/-- C1, amended: for every file whose digest set matches a cataloged hash
signature in the loaded store, scanFile returns a Threat carrying the
cataloged name and severity with the hash detection method tag of the
source (the literal string signature-hash), provided the file is
accessible, within the size bound, not a directory, and not excluded —
its extension is not in the configured exclusion list and no configured
path is a textual prefix of its path. The original claim drops the
exclusion proviso and fails (see the counterexample). -/
theorem c1_hash_match_yields_threat (env : Env)
    (compile : String → List Nat → Nat → Option (Nat × Nat)) (db : DB)
    (det : Detector) (f : File) (si : SigInfo)
    (hacc : f.access = Access.ok)
    (hsize : f.content.length ≤ maxFileSize)
    (hdir : f.isDir = false)
    (hexcl : isExcluded f.path = false)
    (hmatch : checkHashSignatures (loadSignatures compile (initDb db) det).hashes
      (env.hashAll f.content) = some si) :
    (scanFile env compile db det f).1 = Except.ok (some (mkThreat f
      { name := si.name, type := si.type, severity := si.severity,
        description := si.description, method := "signature-hash" })) := by
  unfold scanFile
  rw [hacc]
  simp only []
  rw [if_neg (by omega), if_neg (by simp [hdir]), if_neg (by simp [hexcl])]
  simp only [scanFileChecked, detect, enableSignatureScanning, if_true, hmatch]

/-- Witness for C1: a concrete EICAR-digest file with the scannable
extension .com is reported with the cataloged name and severity. -/
theorem c1_witness :
    (scanFile eicarEnv noCompile emptyDb freshDetector fCom).1
      = Except.ok (some (mkThreat fCom eicarFound)) :=
  c1_hash_match_yields_threat eicarEnv noCompile emptyDb freshDetector fCom
    eicarSigInfo rfl (by decide) rfl (by decide) (by decide)

/-- Counterexample to C1 as stated: the same digest-matching content under
the excluded extension .txt is silently skipped by scanFile (no Threat),
because the exclusion check runs before hashing. -/
theorem c1_counterexample :
    checkHashSignatures (loadSignatures noCompile (initDb emptyDb)
        freshDetector).hashes (eicarEnv.hashAll fTxt.content) = some eicarSigInfo
    ∧ isExcluded fTxt.path = true
    ∧ (scanFile eicarEnv noCompile emptyDb freshDetector fTxt).1 = Except.ok none := by
  refine ⟨by decide, by decide, by decide⟩

/-- C5: initializing an empty store seeds exactly the two public EICAR
digests (md5 and sha256) under the name EICAR-Test-File, and consequently
detect reports any file, whatever its path or name, whose digest set
carries the EICAR md5 and sha256 values as EICAR-Test-File by hash match. -/
theorem c5_eicar_seeded :
    (initDb emptyDb).hash_signatures = [eicarMd5Sig, eicarSha256Sig]
    ∧ ∀ (compile : String → List Nat → Nat → Option (Nat × Nat))
        (path : String) (content : List Nat) (h : Hashes),
        h.md5 = "44d88612fea8a8f36de82e1278abb02f" →
        h.sha256 = "275a021bbfb6489e54d471899f7db9d1663fc695ec2fe2a2c4538aabf651fd0f" →
        (detect compile (initDb emptyDb) freshDetector path h content).1
          = some eicarFound := by
  refine ⟨by decide, ?_⟩
  intro compile path content h h5 h256
  obtain ⟨m5, s1, s2⟩ := h
  simp only at h5 h256
  subst h5
  subst h256
  rfl

/-- Witness for C5: the EICAR digest set under an arbitrary name (here even
one with an excluded media extension) is detected as EICAR-Test-File. -/
theorem c5_witness :
    (detect noCompile (initDb emptyDb) freshDetector
      "Totally Unrelated Name.mov" eicarHashes []).1 = some eicarFound :=
  c5_eicar_seeded.2 noCompile "Totally Unrelated Name.mov" [] eicarHashes rfl rfl

/-- C2, amended: when the scan type resolves (quick, full, or custom with at
least one path), the session record created by the invocation is finalized:
whatever the stop flag did, the record ends in status completed carrying the
final counters and duration of the returned stats. When path resolution
throws (unknown type, or custom without paths), scan returns the error and
the session record created by that invocation remains in status running —
the original all-exit-paths claim fails there (see the counterexample). -/
theorem c2_session_finalization (env : Env)
    (compile : String → List Nat → Nat → Option (Nat × Nat)) (db0 : DB)
    (det0 : Detector) (now endTime : Nat) (ty : String) (paths : List String)
    (enumFiles : List String → List File) (stopAt : Nat → Bool)
    (hfresh : ∀ r ∈ db0.scan_history, r.id ≠ now) :
    ((ty = "quick" ∨ ty = "full" ∨ (ty = "custom" ∧ paths ≠ [])) →
      ((scan env compile db0 det0 now endTime ty paths enumFiles
          stopAt).1.toOption.isSome = true
       ∧ ∀ stats db1 det1,
          scan env compile db0 det0 now endTime ty paths enumFiles stopAt
            = (Except.ok stats, db1, det1) →
          (getScanRec db1 now).map
              (fun r => (r.status, r.files_scanned, r.threats_found, r.duration))
            = some ("completed", stats.filesScanned, stats.threatsFound,
                stats.duration)))
    ∧ (¬(ty = "quick" ∨ ty = "full" ∨ (ty = "custom" ∧ paths ≠ [])) →
      ∀ e db1 det1,
        scan env compile db0 det0 now endTime ty paths enumFiles stopAt
          = (Except.error e, db1, det1) →
        (getScanRec db1 now).map (fun r => r.status) = some "running") := by
  constructor
  · intro hv
    constructor
    · unfold scan
      rw [if_pos hv]
      rfl
    · intro stats db1 det1 heq
      unfold scan at heq
      rw [if_pos hv] at heq
      simp only [Prod.mk.injEq] at heq
      obtain ⟨h1, h2, h3⟩ := heq
      have hstats := (Except.ok.injEq _ _).mp h1
      subst h2
      unfold getScanRec recordScanComplete
      simp only []
      rw [scanLoop_scan_history]
      have hstart : ((recordScanStart (initDb db0) now ty).1).scan_history
          = (initDb db0).scan_history ++
            [{ id := now, scan_type := ty, start_time := now, end_time := 0,
               status := "running", files_scanned := 0, threats_found := 0,
               duration := 0 }] := rfl
      rw [show (recordScanStart (initDb db0) now ty).2 = now from rfl]
      rw [hstart, initDb_scan_history,
        completeFirst_append_fresh _ _ _ _ _ _ _ hfresh rfl,
        find?_append_fresh _ _ _ (fun r hr => hfresh r hr) rfl]
      rw [← hstats]
      rfl
  · intro hv e db1 det1 heq
    unfold scan at heq
    rw [if_neg hv] at heq
    simp only [Prod.mk.injEq] at heq
    obtain ⟨h1, h2, h3⟩ := heq
    subst h2
    unfold getScanRec
    have hstart : ((recordScanStart (initDb db0) now ty).1).scan_history
        = (initDb db0).scan_history ++
          [{ id := now, scan_type := ty, start_time := now, end_time := 0,
             status := "running", files_scanned := 0, threats_found := 0,
             duration := 0 }] := rfl
    rw [hstart, initDb_scan_history,
      find?_append_fresh _ _ _ (fun r hr => hfresh r hr) rfl]
    rfl

/-- Concrete valid scan run for the C2 witness: one EICAR file, no stop. -/
def c2run : Except String ScanStats × DB × Detector :=
  scan eicarEnv noCompile emptyDb freshDetector 100 200 "custom" ["p"]
    (fun _ => [fCom]) (fun _ => false)

/-- Witness for C2: after the concrete custom scan the session record is
completed and carries the final counters (one file scanned, one threat). -/
theorem c2_witness :
    (getScanRec c2run.2.1 100).map
        (fun r => (r.status, r.files_scanned, r.threats_found, r.duration))
      = some ("completed", 1, 1, 100) := by
  have h := (c2_session_finalization eicarEnv noCompile emptyDb freshDetector
    100 200 "custom" ["p"] (fun _ => [fCom]) (fun _ => false)
    (by intro r hr; simp [emptyDb] at hr)).1
    (Or.inr (Or.inr ⟨rfl, by simp⟩))
  have h2 := h.2 (c2run.1.toOption.getD initialStats) c2run.2.1 c2run.2.2 rfl
  rw [h2]
  decide

/-- Counterexample to C2 as stated: a custom scan without paths throws after
the running session record was created; that record is never finalized and
stays in status running after scan returns. -/
theorem c2_counterexample :
    (scan eicarEnv noCompile emptyDb freshDetector 100 200 "custom" []
        (fun _ => []) (fun _ => false)).1 = Except.error "Invalid scan type or paths"
    ∧ (getScanRec (scan eicarEnv noCompile emptyDb freshDetector 100 200
        "custom" [] (fun _ => []) (fun _ => false)).2.1 100).map
          (fun r => r.status) = some "running" := by
  refine ⟨by decide, by decide⟩

/-- A file one byte over the configured maximum scannable size. -/
def bigFile : File :=
  { path := "big.bin", content := List.replicate (maxFileSize + 1) 7,
    isDir := false, access := Access.ok }

/-- C3, amended: an enumerated file whose size exceeds maxFileSize is never
digested — scanFile skips it before any hashing, with no threat — but the
skip still counts towards filesScanned: with no stop request, every
enumerated file whose stat does not rethrow increments the final
filesScanned count, oversized files included. The original claim, that the
oversized file is absent from the final count, fails (see the
counterexample). -/
theorem c3_oversized_skipped_but_counted :
    (∀ (env : Env) (compile : String → List Nat → Nat → Option (Nat × Nat))
        (db : DB) (det : Detector) (f : File),
      f.access = Access.ok → maxFileSize < f.content.length →
      (scanFile env compile db det f).2.2 = false
        ∧ (scanFile env compile db det f).1 = Except.ok none)
    ∧ (∀ (env : Env) (compile : String → List Nat → Nat → Option (Nat × Nat))
        (scanId : Nat) (files : List File) (i : Nat) (st : ScanStats)
        (db : DB) (det : Detector),
      (∀ f ∈ files, f.access ≠ Access.fatal) →
      (scanLoop env compile scanId (fun _ => false) files i st db det).1.filesScanned
        = st.filesScanned + files.length) := by
  constructor
  · intro env compile db det f hacc hbig
    unfold scanFile
    rw [hacc]
    simp only []
    rw [if_pos hbig]
    exact ⟨rfl, rfl⟩
  · intro env compile scanId files i st db det hall
    exact scanLoop_counts_all env compile scanId files i st db det hall

/-- Witness for C3: the concrete oversized file is not digested, yet a loop
over just that file ends with filesScanned one. -/
theorem c3_witness :
    (scanFile eicarEnv noCompile emptyDb freshDetector bigFile).2.2 = false
    ∧ (scanLoop eicarEnv noCompile 1 (fun _ => false) [bigFile] 0 initialStats
        emptyDb freshDetector).1.filesScanned = 1 := by
  have hbig : maxFileSize < bigFile.content.length := by
    show maxFileSize < (List.replicate (maxFileSize + 1) 7).length
    rw [List.length_replicate]
    omega
  refine ⟨(c3_oversized_skipped_but_counted.1 eicarEnv noCompile emptyDb
    freshDetector bigFile rfl hbig).1, ?_⟩
  have h2 := c3_oversized_skipped_but_counted.2 eicarEnv noCompile 1 [bigFile]
    0 initialStats emptyDb freshDetector
    (by intro f hf; rw [List.mem_singleton.mp hf]; decide)
  exact h2

/-- Projection fact used to read the final count of a finished scan. -/
theorem toOption_map_ok (s : ScanStats) :
    (Except.ok s : Except String ScanStats).toOption.map
      (fun x => x.filesScanned) = some s.filesScanned := rfl

/-- Setting the duration does not change the filesScanned counter. -/
theorem filesScanned_set_duration (s : ScanStats) (d : Nat) :
    ({ s with duration := d } : ScanStats).filesScanned = s.filesScanned := rfl

/-- Counterexample to C3 as stated: a custom scan whose only enumerated
file exceeds maxFileSize still ends with filesScanned one — the oversized
file is skipped before digesting but the loop counts it as scanned, where
the claim requires a final count of zero. -/
theorem c3_counterexample :
    maxFileSize < bigFile.content.length
    ∧ (scan eicarEnv noCompile emptyDb freshDetector 100 200 "custom" ["p"]
        (fun _ => [bigFile]) (fun _ => false)).1.toOption.map
          (fun s => s.filesScanned) = some 1 := by
  constructor
  · show maxFileSize < (List.replicate (maxFileSize + 1) 7).length
    rw [List.length_replicate]
    omega
  · have hloop := scanLoop_counts_all eicarEnv noCompile
      (recordScanStart (initDb emptyDb) 100 "custom").2
      ((fun (_ : List String) => [bigFile])
        (if "custom" = "quick" then quickPaths
         else if "custom" = "full" then fullPaths else ["p"]))
      0 initialStats (recordScanStart (initDb emptyDb) 100 "custom").1
      freshDetector
      (by intro f hf; rw [List.mem_singleton.mp hf]; decide)
    rw [show ((fun (_ : List String) => [bigFile])
        (if "custom" = "quick" then quickPaths
         else if "custom" = "full" then fullPaths else ["p"])).length = 1 from rfl]
      at hloop
    have h1 : (scan eicarEnv noCompile emptyDb freshDetector 100 200 "custom"
        ["p"] (fun _ => [bigFile]) (fun _ => false)).1
        = Except.ok { (scanLoop eicarEnv noCompile
            (recordScanStart (initDb emptyDb) 100 "custom").2 (fun _ => false)
            ((fun (_ : List String) => [bigFile])
              (if "custom" = "quick" then quickPaths
               else if "custom" = "full" then fullPaths else ["p"]))
            0 initialStats (recordScanStart (initDb emptyDb) 100 "custom").1
            freshDetector).1 with duration := 200 - 100 } := by
      unfold scan
      rw [if_pos (Or.inr (Or.inr ⟨rfl, by simp⟩))]
    rw [h1, toOption_map_ok, filesScanned_set_duration, hloop]
    rfl

/-- C4: for every file content, quarantine followed by restore of the
returned id writes back content byte-identical to the original — the CBC
decryption under the IV stored in front of the ciphertext inverts the
encryption — so the digest of the restored bytes equals the digest of the
original bytes, which is exactly the hash stored in the metadata record at
quarantine time. The block permutation oracle must be a length-preserving
inverse pair on 16 byte blocks, as AES is. -/
theorem c4_quarantine_restore_roundtrip (bc : BlockCipher)
    (digest : List Nat → String) (rng : Rng) (fs : FS) (v : Vault)
    (p : String) (m : List Nat)
    (hED : ∀ b : List Nat, b.length = 16 → bc.dec (bc.enc b) = b)
    (hLen : ∀ b : List Nat, b.length = 16 → (bc.enc b).length = 16)
    (hiv : rng.iv.length = 16)
    (hget : getFile fs p = some m) :
    ∀ qid fs1 v1, quarantineFile bc digest rng fs v p = Except.ok (qid, fs1, v1) →
      ((entGet v1.metas qid).map QMeta.hash = some (digest m)
       ∧ (restoreFile bc fs1 v1 qid).toOption.map (fun r => getFile r.2.1 r.1)
           = some (some m)) := by
  intro qid fs1 v1 heq
  unfold quarantineFile at heq
  rw [hget] at heq
  simp only [Except.ok.injEq, Prod.mk.injEq] at heq
  obtain ⟨hqid, hfs1, hv1⟩ := heq
  subst hqid
  subst hfs1
  subst hv1
  constructor
  · simp only [entGet_entSet]
    rfl
  · unfold restoreFile
    simp only [entGet_entSet]
    rw [decryptFile_encryptFile bc hED hLen rng.iv hiv m]
    simp only []
    split
    · exact congrArg some (entGet_entSet _ _ _)
    · exact congrArg some (entGet_entSet _ _ _)

/-- Witness for C4: the concrete quarantine of d/x.exe restores exactly the
original bytes, whose digest matches the stored metadata hash. -/
theorem c4_witness :
    (entGet qRun1.2.2.metas qRun1.1).map QMeta.hash = some (digA [1, 2, 3])
    ∧ (restoreFile idBc qRun1.2.1 qRun1.2.2 qRun1.1).toOption.map
        (fun r => getFile r.2.1 r.1) = some (some [1, 2, 3]) :=
  c4_quarantine_restore_roundtrip idBc digA rngA fsA vaultA "d/x.exe" [1, 2, 3]
    (fun _ _ => rfl) (fun _ h => h) (by decide) (by decide)
    qRun1.1 qRun1.2.1 qRun1.2.2 rfl

/-- C8: after a quarantine, permanentDelete on the returned id removes both
the ciphertext object and the metadata object, a subsequent restore on that
id fails with the not-found error, and permanentDelete never fails and is
idempotent — deleting again, with both objects already missing, succeeds
and changes nothing. -/
theorem c8_permanent_delete_removes_both (bc : BlockCipher)
    (digest : List Nat → String) (rng : Rng) (fs : FS) (v : Vault)
    (p : String) (qid : String) (fs1 : FS) (v1 : Vault)
    (_heq : quarantineFile bc digest rng fs v p = Except.ok (qid, fs1, v1)) :
    entGet (permanentDelete v1 qid).ciphers qid = none
    ∧ entGet (permanentDelete v1 qid).metas qid = none
    ∧ restoreFile bc fs1 (permanentDelete v1 qid) qid
        = Except.error "Quarantined file not found"
    ∧ permanentDelete (permanentDelete v1 qid) qid = permanentDelete v1 qid := by
  refine ⟨entGet_entDel _ _, entGet_entDel _ _, ?_, ?_⟩
  · unfold restoreFile
    simp only [permanentDelete, entGet_entDel]
  · show Vault.mk (entDel (entDel v1.ciphers qid) qid) (entDel (entDel v1.metas qid) qid)
      = Vault.mk (entDel v1.ciphers qid) (entDel v1.metas qid)
    rw [entDel_entDel, entDel_entDel]

/-- Witness for C8: deleting the concrete quarantined object leaves nothing
behind and the restore on its id reports not found. -/
theorem c8_witness :
    entGet (permanentDelete qRun1.2.2 qRun1.1).ciphers qRun1.1 = none
    ∧ entGet (permanentDelete qRun1.2.2 qRun1.1).metas qRun1.1 = none
    ∧ restoreFile idBc qRun1.2.1 (permanentDelete qRun1.2.2 qRun1.1) qRun1.1
        = Except.error "Quarantined file not found"
    ∧ permanentDelete (permanentDelete qRun1.2.2 qRun1.1) qRun1.1
        = permanentDelete qRun1.2.2 qRun1.1 :=
  c8_permanent_delete_removes_both idBc digA rngA fsA vaultA "d/x.exe"
    qRun1.1 qRun1.2.1 qRun1.2.2 rfl

/-- C6, amended: the IV prepended to a quarantine ciphertext is exactly the
16 random bytes the call drew, so two calls whose randomBytes draws differ
prepend distinct IVs; and two calls whose 8 byte id draws differ generate
distinct quarantine ids. The code contains no reuse prevention, so the
original unconditional never-reused claim fails when the randomness oracle
repeats a draw (see the counterexample). -/
theorem c6_distinct_draws_distinct_ivs_and_ids (bc : BlockCipher)
    (rng1 rng2 : Rng) (m1 m2 : List Nat)
    (hiv1 : rng1.iv.length = 16) (hiv2 : rng2.iv.length = 16) :
    ((rng1.iv ≠ rng2.iv →
      (encryptFile bc rng1.iv m1).take 16 ≠ (encryptFile bc rng2.iv m2).take 16)
     ∧ (rng1.idHex.length = rng2.idHex.length → rng1.idHex ≠ rng2.idHex →
        genId rng1 ≠ genId rng2)
     ∧ ∀ (digest : List Nat → String) (fs : FS) (v : Vault) (p : String)
         (m : List Nat), getFile fs p = some m →
         ∀ qid fs1 v1,
           quarantineFile bc digest rng1 fs v p = Except.ok (qid, fs1, v1) →
           qid = genId rng1
           ∧ entGet v1.ciphers qid = some (encryptFile bc rng1.iv m)) := by
  refine ⟨?_, ?_, ?_⟩
  · intro hne
    rw [take16_encryptFile bc rng1.iv m1 hiv1, take16_encryptFile bc rng2.iv m2 hiv2]
    exact hne
  · intro hlen hne heq
    exact hne (genId_idHex_inj rng1 rng2 hlen heq)
  · intro digest fs v p m hget qid fs1 v1 heq
    unfold quarantineFile at heq
    rw [hget] at heq
    simp only [Except.ok.injEq, Prod.mk.injEq] at heq
    obtain ⟨hqid, _, hv1⟩ := heq
    subst hqid
    subst hv1
    exact ⟨rfl, entGet_entSet _ _ _⟩

/-- A second randomness draw differing from rngA in both IV and id bytes. -/
def rngB : Rng :=
  { iv := List.replicate 16 1, idHex := "8899aabbccddeeff", now := 5 }

/-- Witness for C6: with distinct draws the prepended IVs differ and the
generated ids differ. -/
theorem c6_witness :
    (encryptFile idBc rngA.iv [1]).take 16 ≠ (encryptFile idBc rngB.iv [2]).take 16
    ∧ genId rngA ≠ genId rngB := by
  have h := c6_distinct_draws_distinct_ivs_and_ids idBc rngA rngB [1] [2]
    (by decide) (by decide)
  exact ⟨h.1 (by decide), h.2.1 (by decide) (by decide)⟩

/-- Counterexample to C6 as stated: nothing in the code prevents reuse — if
the randomness oracle returns the same draw for two sequential quarantine
calls on two different files (a possible randomBytes outcome), both calls
generate the same quarantine id and prepend the same IV. -/
theorem c6_counterexample :
    quarantineFile idBc digA rngA fsA vaultA "d/x.exe"
      = Except.ok (qRun1.1, qRun1.2.1, qRun1.2.2)
    ∧ quarantineFile idBc digA rngA qRun1.2.1 qRun1.2.2 "d/y.exe"
      = Except.ok (qRun2.1, qRun2.2.1, qRun2.2.2)
    ∧ qRun1.1 = qRun2.1
    ∧ (entGet qRun1.2.2.ciphers qRun1.1).map (List.take 16) = some rngA.iv
    ∧ (entGet qRun2.2.2.ciphers qRun2.1).map (List.take 16) = some rngA.iv := by
  refine ⟨by decide, by decide, by decide, by decide, by decide⟩

/-- A concrete regex engine instance: the compiled pattern matching the
single byte 7, with JS lastIndex semantics supplied by testPat. -/
def findByteFrom (b : Nat) (c : List Nat) (i : Nat) : Option (Nat × Nat) :=
  match (c.drop i).findIdx? (fun x => x == b) with
  | none => none
  | some k => some (i + k, i + k + 1)

/-- A concrete compiled pattern signature (fresh, lastIndex zero). -/
def patSeven : PatternSig :=
  { name := "Seven", type := "test", severity := "low",
    description := "byte 7 pattern", exec := findByteFrom 7, lastIndex := 0,
    offset := 0, maxBytes := 1024 * 1024 }

/-- C7 failing input: the pattern signatures are compiled once with the
global regex flag and reused across calls, so test carries lastIndex from
one file to the next. After a match in a first file (byte 7 at index 0 of
a.exe, leaving lastIndex 1), the same detector state scans b.exe, whose
prefix also contains the pattern at index 0; the claimed first-match
semantics would report it, but the stateful test resumes at index 1 and
checkPatternSignatures returns none. -/
theorem c7_global_regex_state_bug :
    ((checkPatternSignatures [patSeven] "a.exe" [7]).1).map (fun s => s.name)
      = some "Seven"
    ∧ (checkPatternSignatures (checkPatternSignatures [patSeven] "a.exe" [7]).2
        "b.exe" [7, 0]).1 = none
    ∧ patSeven.exec (([7, 0] : List Nat).take
        (min ([7, 0] : List Nat).length maxReadSize)) 0 = some (0, 1) := by
  refine ⟨by decide, by decide, by decide⟩

/-- Sum monotonicity over pointwise related lists. -/
theorem sum_le_of_forall2 : ∀ {l1 l2 : List Nat},
    List.Forall₂ (fun a b => a ≤ b) l1 l2 → l1.sum ≤ l2.sum := by
  intro l1 l2 h
  induction h with
  | nil => exact Nat.le_refl 0
  | cons hab _ ih =>
    simp only [List.sum_cons]
    omega

/-- C9: the heuristic suspicion score is the sum of the seven fixed
non-negative check contributions, so it is monotone: whenever every check
contributes at least as much (in particular when one additional check fires
and the others are unchanged), the total never decreases; and the score
analyze reports is exactly that sum. -/
theorem c9_suspicion_score_monotonic :
    (∀ (e1 : HeurEnv) (p1 : String) (s1 : Nat) (c1 : List Nat)
       (e2 : HeurEnv) (p2 : String) (s2 : Nat) (c2 : List Nat),
      List.Forall₂ (fun a b => a ≤ b) (componentScores e1 p1 s1 c1)
        (componentScores e2 p2 s2 c2) →
      suspicionScore e1 p1 s1 c1 ≤ suspicionScore e2 p2 s2 c2)
    ∧ (∀ (e : HeurEnv) (p : String) (s : Nat) (c : List Nat)
        (r : FoundInfo × Nat),
      analyze e p s c = some r → r.2 = suspicionScore e p s c) := by
  constructor
  · intro e1 p1 s1 c1 e2 p2 s2 c2 h
    exact sum_le_of_forall2 h
  · intro e p s c r h
    simp only [analyze] at h
    split at h
    · simp only [Option.some.injEq] at h
      rw [← h]
    · exact absurd h (by simp)

/-- Heuristic oracles on which every regex bank fires and the attrib output
shows the hidden flag. -/
def susHeur : HeurEnv :=
  { namePat := fun _ => true, locPat := fun _ => true,
    dblPat := fun _ => true, isWin32 := true, attribOut := fun _ => "A  SH  x" }

/-- Witness for C9: a file on which only the extension check fires against
one on which every additional check also fires — the score never drops. -/
theorem c9_witness :
    suspicionScore trivHeur "a.exe" 20000 []
      ≤ suspicionScore susHeur "crack.exe" 100 [] := by
  refine c9_suspicion_score_monotonic.1 trivHeur "a.exe" 20000 []
    susHeur "crack.exe" 100 [] ?_
  have h1 : componentScores trivHeur "a.exe" 20000 [] = [15, 0, 0, 0, 0, 0, 0] := by
    decide
  have h2 : componentScores susHeur "crack.exe" 100 []
      = [15, 20, 10, 15, 15, 20, 0] := by decide
  rw [h1, h2]
  refine List.Forall₂.cons (by omega) ?_
  refine List.Forall₂.cons (by omega) ?_
  refine List.Forall₂.cons (by omega) ?_
  refine List.Forall₂.cons (by omega) ?_
  refine List.Forall₂.cons (by omega) ?_
  refine List.Forall₂.cons (by omega) ?_
  exact List.Forall₂.cons (by omega) List.Forall₂.nil

/-- C10: getQuarantineList never propagates a failure — a failing directory
listing, or any failing metadata read, yields the empty list — and on
success it returns the metadata records sorted newest first by quarantine
timestamp (a permutation of the reads, pairwise ordered). -/
theorem c10_quarantine_list_total_sorted :
    ∀ (readdir : Except Unit (List String))
      (readJson : String → Except Unit QMeta),
    (readdir = Except.error () → getQuarantineList readdir readJson = [])
    ∧ (∀ names, readdir = Except.ok names →
        (readAllMetas readJson (names.filter (fun f => strEndsWith f ".json"))
            = Except.error () →
          getQuarantineList readdir readJson = [])
        ∧ (∀ mds, readAllMetas readJson
              (names.filter (fun f => strEndsWith f ".json")) = Except.ok mds →
            List.Pairwise newerFirst (getQuarantineList readdir readJson)
            ∧ (getQuarantineList readdir readJson).Perm mds)) := by
  intro readdir readJson
  constructor
  · intro h
    rw [h]
    rfl
  · intro names h
    subst h
    constructor
    · intro herr
      unfold getQuarantineList
      simp only [herr]
    · intro mds hok
      unfold getQuarantineList
      simp only [hok]
      exact ⟨List.sorted_insertionSort newerFirst mds,
        List.perm_insertionSort newerFirst mds⟩

/-- A concrete quarantine directory listing and metadata reader. -/
def qmB : QMeta :=
  { id := "b.json", originalPath := "", fileName := "", fileSize := 0,
    quarantinedAt := 1, hash := "" }

def qmA : QMeta :=
  { id := "a.json", originalPath := "", fileName := "", fileSize := 0,
    quarantinedAt := 9, hash := "" }

def c10readJson : String → Except Unit QMeta :=
  fun f => if f = "a.json" then Except.ok qmA else Except.ok qmB

/-- Witness for C10: the concrete listing is returned sorted newest first
and is a permutation of the records read. -/
theorem c10_witness :
    List.Pairwise newerFirst (getQuarantineList
      (Except.ok ["b.json", "a.json", "x.quar"]) c10readJson)
    ∧ (getQuarantineList (Except.ok ["b.json", "a.json", "x.quar"])
        c10readJson).Perm [qmB, qmA] :=
  ((c10_quarantine_list_total_sorted (Except.ok ["b.json", "a.json", "x.quar"])
      c10readJson).2 ["b.json", "a.json", "x.quar"] rfl).2 [qmB, qmA] (by decide)

end AV
